import Mathlib

/-!
Shallow embedding of the `EcommerceETL` pipeline (src/Code/etl_process.py) and
proofs about its transformation logic.  Nullable columns are modelled as
`Option` values; decimal(p,2) columns are modelled as integer cent counts;
tables are lists of typed rows.
-/

namespace ECommerceETL

/-- A wall-clock timestamp as produced by parsing "dd/MM/yyyy H:mm". -/
structure Timestamp where
  year : Nat
  month : Nat
  day : Nat
  hour : Nat
  minute : Nat
deriving DecidableEq

/-- Numeric value of a list of ASCII digit characters (most significant first). -/
def digitsToNat (l : List Char) : Nat :=
  l.foldl (fun acc c => acc * 10 + (c.toNat - 48)) 0

/-- Proleptic Gregorian leap-year rule used by the strict java.time resolver. -/
def isLeapYear (y : Nat) : Bool :=
  (y % 4 == 0 && y % 100 != 0) || y % 400 == 0

/-- Number of days in a month under the strict calendar resolution. -/
def daysInMonth (y m : Nat) : Nat :=
  if m == 2 then (if isLeapYear y then 29 else 28)
  else if m == 4 || m == 6 || m == 9 || m == 11 then 30
  else 31

/-- Parses the "H:mm" tail of the timestamp pattern: a one- or two-digit
hour (pattern letter `H` consumes up to two digits greedily), a colon, and a
two-digit minute, consuming the whole remaining input. -/
def parseHourMinute : List Char → Option (Nat × Nat)
  | [h1, h2, ':', m1, m2] =>
    if h1.isDigit ∧ h2.isDigit ∧ m1.isDigit ∧ m2.isDigit then
      some (digitsToNat [h1, h2], digitsToNat [m1, m2])
    else none
  | [h1, ':', m1, m2] =>
    if h1.isDigit ∧ m1.isDigit ∧ m2.isDigit then
      some (digitsToNat [h1], digitsToNat [m1, m2])
    else none
  | _ => none

/-- Spark `to_timestamp(col, "dd/MM/yyyy H:mm")` with the Spark 3 parser:
two-digit day, two-digit month, four-digit year, one- or two-digit hour and
two-digit minute, resolved strictly (invalid calendar dates such as
31/02/2024 fail), returning `none` rather than raising on any failure. -/
def parseTimestamp (s : String) : Option Timestamp :=
  match s.data with
  | d1 :: d2 :: '/' :: n1 :: n2 :: '/' :: y1 :: y2 :: y3 :: y4 :: ' ' :: rest =>
    if d1.isDigit ∧ d2.isDigit ∧ n1.isDigit ∧ n2.isDigit ∧
       y1.isDigit ∧ y2.isDigit ∧ y3.isDigit ∧ y4.isDigit then
      match parseHourMinute rest with
      | some (h, mi) =>
        let day := digitsToNat [d1, d2]
        let month := digitsToNat [n1, n2]
        let year := digitsToNat [y1, y2, y3, y4]
        if 1 ≤ month ∧ month ≤ 12 ∧ 1 ≤ day ∧ day ≤ daysInMonth year month ∧
           h ≤ 23 ∧ mi ≤ 59 then
          some ⟨year, month, day, h, mi⟩
        else none
      | none => none
    else none
  | _ => none

/-- Raw row of the customers CSV (inferred schema; all cells nullable).
Decimal-valued cells carry integer cent counts. -/
structure RawCustomerRow where
  customerId : Option Int
  age : Option Int
  gender : Option String
  location : Option String
  reviewRating : Option Rat
  subscriptionStatus : Option String
  frequencyOfPurchases : Option String
  purchaseAmountUsd : Option Int
  shippingType : Option String
  discountApplied : Option Int
  promoCodeUsed : Option String
  paymentMethod : Option String
deriving DecidableEq

/-- Raw row of the transactions CSV: the columns consumed by
`transform_transactions` ("user id", "product id", "Time stamp"). -/
structure RawTransactionRow where
  userId : Option Int
  productId : Option String
  timeStamp : Option String
deriving DecidableEq

/-- Output row of `transform_customers`. -/
structure CustomerRow where
  customer_id : Option Int
  age : Option Int
  gender : Option String
  location : Option String
  review_rating : Option Rat
  subscription_status : Option String
  frequency_of_purchases : Option String
deriving DecidableEq

/-- Output row of `transform_transactions`: the three transaction columns plus
the five customer-derived columns brought in by the left join. -/
structure TransactionRow where
  customer_id : Option Int
  product_id : Option String
  purchase_date : Option Timestamp
  purchase_amount_usd : Option Int
  shipping_type : Option String
  discount_applied : Option Int
  promo_code_used : Option String
  payment_method : Option String
deriving DecidableEq

/-- Projection/rename performed by `transform_customers` (no row filtering). -/
def transform_customers (l : List RawCustomerRow) : List CustomerRow :=
  l.map fun r =>
    ⟨r.customerId, r.age, r.gender, r.location, r.reviewRating,
     r.subscriptionStatus, r.frequencyOfPurchases⟩

/-- Value of the `purchase_date` column added by
`withColumn("purchase_date", to_timestamp(col("Time stamp"), ...))`:
a null cell or a parse failure both yield null. -/
def parsedDate (t : RawTransactionRow) : Option Timestamp :=
  t.timeStamp.bind parseTimestamp

/-- SQL equality on the `customer_id` join key: null matches nothing
(including another null). -/
def joinMatches (cid : Option Int) (c : RawCustomerRow) : Bool :=
  match cid, c.customerId with
  | some a, some b => a == b
  | _, _ => false

/-- Rows produced for one kept transaction record by the
`how="left"` join on `customer_id`: one row per matching customer row, or a
single null-filled row when no customer matches. -/
def leftJoinRows (custs : List RawCustomerRow) (cid : Option Int)
    (pid : Option String) (d : Timestamp) : List TransactionRow :=
  if (custs.filter fun c => joinMatches cid c).isEmpty then
    [⟨cid, pid, some d, none, none, none, none, none⟩]
  else
    (custs.filter fun c => joinMatches cid c).map fun c =>
      ⟨cid, pid, some d, c.purchaseAmountUsd, c.shippingType,
       c.discountApplied, c.promoCodeUsed, c.paymentMethod⟩

/-- Embedding of `transform_transactions`: parse the timestamp, project the
three transaction columns, drop rows whose `purchase_date` is null
(`dropna(subset=["purchase_date"])`), then left-join the customer projection
on `customer_id`. -/
def transform_transactions (txns : List RawTransactionRow)
    (custs : List RawCustomerRow) : List TransactionRow :=
  (txns.filterMap fun t =>
      (parsedDate t).map fun d => (t.userId, t.productId, d)).flatMap
    fun x => leftJoinRows custs x.1 x.2.1 x.2.2

/-- Character class `[\d,]` of the selling-price regular expression. -/
def isDigitOrComma (c : Char) : Bool :=
  c.isDigit || c == ','

/-- First match of the Java regular expression `\$([\d,]+\.?\d*)` in a
character list, returning capture group 1: scanning left to right, the match
starts at the first position holding a literal `$` followed by at least one
digit/comma; the group is the greedy run of digits/commas, then an optional
`.` followed by a greedy (possibly empty) digit run. -/
def extractPriceGroup : List Char → Option (List Char)
  | [] => none
  | c :: rest =>
    if c = '$' ∧ ¬(rest.takeWhile isDigitOrComma).isEmpty then
      match rest.dropWhile isDigitOrComma with
      | '.' :: after =>
        some (rest.takeWhile isDigitOrComma ++ '.' :: after.takeWhile Char.isDigit)
      | _ => some (rest.takeWhile isDigitOrComma)
    else extractPriceGroup rest

/-- Positions at which the selling-price regular expression can match: a
literal `$` immediately followed by a digit or comma.  `hasPriceMatch l`
says some position of `l` starts a match. -/
def hasPriceMatch : List Char → Bool
  | [] => false
  | c :: rest =>
    if c = '$' ∧ ¬(rest.takeWhile isDigitOrComma).isEmpty then true
    else hasPriceMatch rest

/-- String carrying group 1 of the first regex match in a character list, or
the empty string when the pattern does not match anywhere. -/
def extractPriceString (l : List Char) : String :=
  match extractPriceGroup l with
  | some g => ⟨g⟩
  | none => ⟨[]⟩

/-- Spark `regexp_extract(col, "\$([\d,]+\.?\d*)", 1)`: group 1 of the first
match, or the empty string when the pattern does not match. -/
def regexpExtractPrice (s : String) : String :=
  extractPriceString s.data

/-- Rounding of a fraction-digit list to cents, HALF_UP: two fraction digits
are kept and the value is rounded up when the third digit is 5 or more. -/
def fracToCents : List Char → Nat
  | [] => 0
  | [a] => 10 * (a.toNat - 48)
  | a :: b :: rest =>
    10 * (a.toNat - 48) + (b.toNat - 48) +
      (match rest with
       | [] => 0
       | c :: _ => if 53 ≤ c.toNat then 1 else 0)

/-- Packs an integer-digit part and a fraction-digit part into a
decimal(10,2) cent count, failing (null) when the rounded value needs more
than 10 significant digits. -/
def decimalCents (ip frac : List Char) : Option Int :=
  let cents := digitsToNat ip * 100 + fracToCents frac
  if cents < 10 ^ 10 then some (Int.ofNat cents) else none

/-- Parse of a character list drawn from the selling-price regex (digits,
commas, at most one dot) as a plain decimal literal — so any comma, or an
empty list, yields null — rounded HALF_UP to scale 2 and checked against
precision 10. -/
def castDecCents (cs : List Char) : Option Int :=
  match cs.dropWhile Char.isDigit with
  | [] =>
    if (cs.takeWhile Char.isDigit).isEmpty then none
    else decimalCents (cs.takeWhile Char.isDigit) []
  | '.' :: frac =>
    if frac.all Char.isDigit ∧
       ¬((cs.takeWhile Char.isDigit).isEmpty ∧ frac.isEmpty) then
      decimalCents (cs.takeWhile Char.isDigit) frac
    else none
  | _ => none

/-- Spark `cast("decimal(10,2)")` applied to the extracted string. -/
def castDecimal102 (s : String) : Option Int :=
  castDecCents s.data

/-- Value of the `selling_price` column:
`regexp_extract(col("Selling Price"), ..., 1).cast("decimal(10,2)")`,
with a null input cell propagating to a null output. -/
def sellingPriceOf (v : Option String) : Option Int :=
  v.bind fun s => castDecimal102 (regexpExtractPrice s)

/-- Raw row of the products CSV: the columns consumed by
`transform_products`, with already-numeric cells modelled post-inference. -/
structure RawProductRow where
  uniqeId : Option String
  productName : Option String
  brandName : Option String
  category : Option String
  modelNumber : Option String
  sizeQuantityVariant : Option String
  color : Option String
  dimensions : Option String
  shippingWeight : Option Int
  sellingPrice : Option String
  stock : Option Int
  quantity : Option Int
  productUrl : Option String
  productDescription : Option String
deriving DecidableEq

/-- Output row of `transform_products`. -/
structure ProductRow where
  product_id : Option String
  product_name : Option String
  brand_name : Option String
  category : Option String
  model_number : Option String
  size : Option String
  color : Option String
  dimensions : Option String
  shipping_weight : Option Int
  selling_price : Option Int
  stock : Option Int
  quantity : Option Int
  product_url : Option String
  product_description : Option String
deriving DecidableEq

/-- Embedding of `transform_products`: projection/rename/cast of the product
columns, with `selling_price` extracted from the currency string. -/
def transform_products (l : List RawProductRow) : List ProductRow :=
  l.map fun r =>
    ⟨r.uniqeId, r.productName, r.brandName, r.category, r.modelNumber,
     r.sizeQuantityVariant, r.color, r.dimensions, r.shippingWeight,
     sellingPriceOf r.sellingPrice, r.stock, r.quantity,
     r.productUrl, r.productDescription⟩

/-- Output row of `transform_product_categories`:
`category_id` is populated from the `product_id` column. -/
structure ProductCategoryRow where
  category_id : Option String
  category_name : Option String
deriving DecidableEq

/-- Embedding of `transform_product_categories`: project
(product_id as category_id, category as category_name) and deduplicate on the
full row (`distinct`, modelled set-wise by `List.dedup`). -/
def transform_product_categories (l : List ProductRow) : List ProductCategoryRow :=
  (l.map fun r => (⟨r.product_id, r.category⟩ : ProductCategoryRow)).dedup

/-- Output row of `transform_product_variants`. -/
structure ProductVariantRow where
  product_id : Option String
  size : Option String
  color : Option String
  stock_quantity : Option Int
deriving DecidableEq

/-- Default string substituted by `fillna` for null size/color cells. -/
def unknownDefault : String := "Unknown"

/-- The `fillna({"size": "Unknown", "color": "Unknown", "stock_quantity": 0})`
step of `transform_product_variants`. -/
def fillnaVariant (r : ProductVariantRow) : ProductVariantRow :=
  ⟨r.product_id, some (r.size.getD unknownDefault),
   some (r.color.getD unknownDefault), some (r.stock_quantity.getD 0)⟩

/-- Embedding of `transform_product_variants`: project four columns
(quantity renamed to stock_quantity), substitute defaults for nulls, then
deduplicate on the full row (the debugging `summary(...).show()` side effect
has no bearing on the returned table). -/
def transform_product_variants (l : List ProductRow) : List ProductVariantRow :=
  ((l.map fun r =>
      (⟨r.product_id, r.size, r.color, r.quantity⟩ : ProductVariantRow)).map
    fillnaVariant).dedup

/-- Output row of `transform_interactions`. -/
structure InteractionRow where
  user_id : Option Int
  product_id : Option String
  timestamp : Option Timestamp
  interaction_type : Option String
deriving DecidableEq

/-- Embedding of `transform_interactions`: a pure projection/rename of the
transformed transactions (interaction_type is populated from payment_method). -/
def transform_interactions (l : List TransactionRow) : List InteractionRow :=
  l.map fun r => ⟨r.customer_id, r.product_id, r.purchase_date, r.payment_method⟩

/-- Row of the persisted `transactions` sink table as read back by
`read_from_postgres`: the sink schema additionally carries a
`transaction_id` column not produced by this pipeline. -/
structure SinkTransactionRow where
  transaction_id : Option Int
  promo_code_used : Option String
  discount_applied : Option Int
  customer_id : Option Int
  product_id : Option String
  purchase_date : Option Timestamp
deriving DecidableEq

/-- Output row of `transform_discounts`. -/
structure DiscountRow where
  transaction_id : Option Int
  promo_code_used : Option String
  discount_applied : Option Int
  customer_id : Option Int
  product_id : Option String
  purchase_date : Option Timestamp
deriving DecidableEq

/-- Column projection performed by the `select` in `transform_discounts`. -/
def discountProj (t : SinkTransactionRow) : DiscountRow :=
  ⟨t.transaction_id, t.promo_code_used, t.discount_applied,
   t.customer_id, t.product_id, t.purchase_date⟩

/-- Embedding of `transform_discounts`: a null input table raises
`ValueError` (modelled as `Except.error`); otherwise the six discount columns
are selected and rows are filtered to a non-null `promo_code_used`. -/
def transform_discounts :
    Option (List SinkTransactionRow) → Except String (List DiscountRow)
  | none => Except.error ("transactions_df is None. Check if the table was read correctly.")
  | some l => Except.ok ((l.map discountProj).filter fun r => r.promo_code_used.isSome)

/-- Observable steps of one `run_etl` invocation, in execution order.
Load failures are logged and re-raised; the eager schema probe of a sink
read is logged (`readSink`/`readError`); the lazy JDBC data scan backing a
read executes later, inside the consuming write action (`scanSink`); write
failures are logged and swallowed; the top-level handler logs any escaped
exception as `etlError`. -/
inductive Event where
  | loadCsv (path : String)
  | loadError (path : String)
  | readSink (name : String)
  | readError (name : String)
  | scanSink (name : String)
  | writeSink (name : String)
  | writeError (name : String)
  | etlError
deriving DecidableEq

/-- Name of the one sink table this pipeline both writes and reads back. -/
def tnTransactions : String := "transactions"

/-- State of the relational sink: only the `transactions` table is ever read
back by the pipeline, so only its content is tracked (`none` when the table
does not exist). -/
structure SinkState where
  transactionsTable : Option (List SinkTransactionRow)
deriving DecidableEq

/-- Shape a written transaction row takes in the sink (the sink supplies the
`transaction_id` column, which this pipeline never populates; its
sink-assigned value is left uninterpreted). -/
def toSinkRow (r : TransactionRow) : SinkTransactionRow :=
  ⟨none, r.promo_code_used, r.discount_applied,
   r.customer_id, r.product_id, r.purchase_date⟩

/-- Lazy JDBC scan handle returned by `spark.read.jdbc`: a plan to read the
named sink table, carrying no data until a consuming action executes it. -/
structure SinkScan where
  table : String
deriving DecidableEq

/-- Embedding of `read_from_postgres "transactions"`: `spark.read.jdbc`
eagerly resolves only the table's schema — a broken connection or a missing
table raises there, which is caught, logged, and surfaced as `none` — and
returns a lazy scan handle; the data itself is read only when a consuming
action (here the discounts write) runs. -/
def read_from_postgres (readFail : Bool) (st : SinkState) : Option SinkScan :=
  if readFail then none
  else
    match st.transactionsTable with
    | none => none
    | some _ => some ⟨tnTransactions⟩

/-- What a persist call writes: a table whose content the model does not
track; the transactions table itself (tracked, because it is read back); or
the discounts plan, a lazy scan of the `transactions` sink table that is
materialized only when this write action executes. -/
inductive Payload where
  | plain
  | transactionsData (rows : List TransactionRow)
  | discountsScan
deriving DecidableEq

/-- Outcome of one or more persist calls: the resulting sink state, the
emitted events, and — once the discounts write action has run its scan —
the transactions rows that scan saw and the discount rows written. -/
structure WritesOut where
  sink : SinkState
  events : List Event
  discountsScannedInput : Option (List SinkTransactionRow)
  discountsWritten : Option (List DiscountRow)
deriving DecidableEq

/-- First-defined option wins (at most one persist call produces each
tracked discounts component). -/
def mergeOpt {α : Type} : Option α → Option α → Option α
  | some x, _ => some x
  | none, b => b

/-- Embedding of `write_to_postgres` in `mode="append"`: a failing write
leaves the sink unchanged and is swallowed (only an error event is
emitted).  A successful transactions write appends its rows to the sink
table.  A successful discounts write first executes the deferred JDBC scan
of the `transactions` table — against the sink state at this point, i.e.
after the transactions append two steps earlier — and writes
`transform_discounts` of the scanned rows. -/
def write_to_postgres (wf : String → Bool) (name : String)
    (payload : Payload) (st : SinkState) : WritesOut :=
  if wf name then ⟨st, [Event.writeError name], none, none⟩
  else
    match payload with
    | Payload.plain => ⟨st, [Event.writeSink name], none, none⟩
    | Payload.transactionsData rs =>
      ⟨⟨some ((st.transactionsTable.getD []) ++ rs.map toSinkRow)⟩,
       [Event.writeSink name], none, none⟩
    | Payload.discountsScan =>
      ⟨st, [Event.scanSink tnTransactions, Event.writeSink name],
       some (st.transactionsTable.getD []),
       (transform_discounts (some (st.transactionsTable.getD []))).toOption⟩

/-- The seven persist calls of `run_etl` in their fixed source order, paired
with what each writes. -/
def persistPlan (transactionsT : List TransactionRow) :
    List (String × Payload) :=
  [("customers", Payload.plain), ("products", Payload.plain),
   ("transactions", Payload.transactionsData transactionsT),
   ("interactions", Payload.plain), ("discounts", Payload.discountsScan),
   ("product_categories", Payload.plain),
   ("product_variants", Payload.plain)]

/-- The seven sink table names in persist order. -/
def sevenTableNames : List String :=
  ["customers", "products", "transactions", "interactions",
   "discounts", "product_categories", "product_variants"]

/-- Sequential execution of a list of persist calls, threading the sink
state and collecting the emitted events and the tracked discounts data. -/
def runWrites (wf : String → Bool) :
    List (String × Payload) → SinkState → WritesOut
  | [], st => ⟨st, [], none, none⟩
  | (n, p) :: rest, st =>
    ⟨(runWrites wf rest (write_to_postgres wf n p st).sink).sink,
     (write_to_postgres wf n p st).events ++
       (runWrites wf rest (write_to_postgres wf n p st).sink).events,
     mergeOpt (write_to_postgres wf n p st).discountsScannedInput
       (runWrites wf rest (write_to_postgres wf n p st).sink).discountsScannedInput,
     mergeOpt (write_to_postgres wf n p st).discountsWritten
       (runWrites wf rest (write_to_postgres wf n p st).sink).discountsWritten⟩

/-- Inputs of one `run_etl` invocation: the three CSV paths and their file
contents, plus the failure behavior of the external collaborators. -/
structure EtlConfig where
  customerPath : String
  productPath : String
  transactionPath : String
  loadFails : String → Bool
  loadCustomers : List RawCustomerRow
  loadProducts : List RawProductRow
  loadTransactions : List RawTransactionRow
  readFails : Bool
  writeFails : String → Bool

/-- Observable outcome of one `run_etl` invocation.
`discountsScannedInput` is the transactions-table content the deferred
discounts scan saw (when the discounts write action ran) and
`discountsWritten` the discount rows that action wrote. -/
structure RunResult where
  events : List Event
  sink : SinkState
  discountsScannedInput : Option (List SinkTransactionRow)
  discountsWritten : Option (List DiscountRow)
deriving DecidableEq

/-- Embedding of `run_etl`: load the three CSVs (re-raising on failure,
which the top-level handler logs before the run terminates); transform;
probe the persisted `transactions` table (`read_from_postgres` — only the
schema resolution is eager; `transform_discounts` raises on its null
handle, which aborts before any write); then persist the seven tables in
fixed order, swallowing write failures.  The discounts dataframe is a lazy
plan over the sink's `transactions` table, so its scan executes inside the
fifth write action — after the transactions append two writes earlier. -/
def run_etl (cfg : EtlConfig) (st0 : SinkState) : RunResult :=
  if cfg.loadFails cfg.customerPath then
    ⟨[Event.loadError cfg.customerPath, Event.etlError], st0, none, none⟩
  else if cfg.loadFails cfg.productPath then
    ⟨[Event.loadCsv cfg.customerPath, Event.loadError cfg.productPath,
      Event.etlError], st0, none, none⟩
  else if cfg.loadFails cfg.transactionPath then
    ⟨[Event.loadCsv cfg.customerPath, Event.loadCsv cfg.productPath,
      Event.loadError cfg.transactionPath, Event.etlError], st0, none, none⟩
  else
    let transactionsT :=
      transform_transactions cfg.loadTransactions cfg.loadCustomers
    match read_from_postgres cfg.readFails st0 with
    | none =>
      ⟨[Event.loadCsv cfg.customerPath, Event.loadCsv cfg.productPath,
        Event.loadCsv cfg.transactionPath, Event.readError tnTransactions,
        Event.etlError], st0, none, none⟩
    | some _ =>
      ⟨[Event.loadCsv cfg.customerPath, Event.loadCsv cfg.productPath,
        Event.loadCsv cfg.transactionPath, Event.readSink tnTransactions] ++
          (runWrites cfg.writeFails (persistPlan transactionsT) st0).events,
       (runWrites cfg.writeFails (persistPlan transactionsT) st0).sink,
       (runWrites cfg.writeFails
         (persistPlan transactionsT) st0).discountsScannedInput,
       (runWrites cfg.writeFails
         (persistPlan transactionsT) st0).discountsWritten⟩

/-- Names of the write calls attempted in an event list, in order
(successful and swallowed-failure writes alike). -/
def attemptedWrites : List Event → List String
  | [] => []
  | Event.writeSink n :: es => n :: attemptedWrites es
  | Event.writeError n :: es => n :: attemptedWrites es
  | _ :: es => attemptedWrites es

/-- Names of the successful write calls in an event list, in order. -/
def successfulWrites : List Event → List String
  | [] => []
  | Event.writeSink n :: es => n :: successfulWrites es
  | _ :: es => successfulWrites es

/-! ## Concrete instances used by counterexamples and witnesses -/

/-- Transaction record with a valid timestamp. -/
def txnValid : RawTransactionRow :=
  ⟨some 7, some ("p1"), some ("01/01/2024 0:00")⟩

/-- Transaction record whose timestamp names the invalid calendar date
31/02/2024. -/
def txnInvalidDate : RawTransactionRow :=
  ⟨some 7, some ("p1"), some ("31/02/2024 10:00")⟩

/-- Transaction record with a valid timestamp but a null `user id` cell. -/
def txnNullUser : RawTransactionRow :=
  ⟨none, some ("p1"), some ("01/01/2024 0:00")⟩

/-- Customer record with id 9 (matching nothing below). -/
def custNine : RawCustomerRow :=
  ⟨some 9, some 30, some ("F"), some ("NY"), none, some ("Yes"),
   some ("Monthly"), some 5000, some ("Express"), some 10, some ("SAVE10"),
   some ("Card")⟩

/-- Customer record with id 77. -/
def custSeventySevenA : RawCustomerRow :=
  ⟨some 77, some 30, some ("F"), some ("NY"), none, some ("Yes"),
   some ("Monthly"), some 5000, some ("Express"), some 10, some ("SAVE10"),
   some ("Card")⟩

/-- Second customer record sharing id 77 (a duplicated Customer ID). -/
def custSeventySevenB : RawCustomerRow :=
  ⟨some 77, some 41, some ("M"), some ("LA"), none, some ("No"),
   some ("Weekly"), some 900, some ("Standard"), none, none, some ("Cash")⟩

/-- Transaction record referencing customer 77, with a valid timestamp. -/
def txnSeventySeven : RawTransactionRow :=
  ⟨some 77, some ("p2"), some ("02/03/2024 15:30")⟩

/-- Following the claim's words, not the source: tail of the claimed price
pattern after the leading digit run — zero or more comma-separated digit
groups followed by an optional decimal part. `fuel` bounds the recursion
(instantiated with the list length, which suffices since every step consumes
at least two characters). -/
def claimPriceBody : Nat → List Char → Bool
  | _, [] => true
  | 0, _ :: _ => false
  | f + 1, ',' :: rest =>
    !(rest.takeWhile Char.isDigit).isEmpty &&
      claimPriceBody f (rest.dropWhile Char.isDigit)
  | _ + 1, '.' :: rest => !rest.isEmpty && rest.all Char.isDigit
  | _ + 1, _ :: _ => false

/-- Following the claim's words, not the source: a whole string of the form
`$<digits>[,<digits>]*[.<digits>]` — a literal `$`, digits with optional
comma thousands separators, and an optional decimal part. -/
def claimPricePattern (s : String) : Bool :=
  match s.data with
  | '$' :: rest =>
    !(rest.takeWhile Char.isDigit).isEmpty &&
      claimPriceBody rest.length (rest.dropWhile Char.isDigit)
  | _ => false

/-- Following the claim's words, not the source: the numeric value (in
cents) of a price string with the currency symbol and the thousands
separators removed. -/
def claimStrippedCents (s : String) : Option Int :=
  match (s.data.filter fun c => !(c == '$' || c == ',')).dropWhile Char.isDigit with
  | [] =>
    if ((s.data.filter fun c => !(c == '$' || c == ',')).takeWhile
          Char.isDigit).isEmpty then none
    else some (Int.ofNat (digitsToNat
      ((s.data.filter fun c => !(c == '$' || c == ',')).takeWhile
        Char.isDigit) * 100))
  | '.' :: fs =>
    if fs.all Char.isDigit ∧ fs.length ≤ 2 then
      some (Int.ofNat (digitsToNat
        ((s.data.filter fun c => !(c == '$' || c == ',')).takeWhile
          Char.isDigit) * 100 + fracToCents fs))
    else none
  | _ => none

/-- Run configuration with empty source files and no collaborator failures. -/
def cfgDemo : EtlConfig :=
  ⟨"customer_details.csv", "product_details.csv", "sales_2023.csv",
   fun _ => false, [], [], [], false, fun _ => false⟩

/-- Sink that already holds an (empty) `transactions` table, as left behind
by an earlier run. -/
def sinkDemo : SinkState := ⟨some []⟩

/-! ## Theorems -/

/-- C6: `transform_discounts` raises a precondition failure (`ValueError`)
when its input table is null, producing no discounts output; for every
non-null input table its output consists exactly of the input rows whose
`promo_code_used` is non-null, projected to the six discount columns, so no
output row has a null promo code. -/
theorem C6_discounts_precondition (tbl : List SinkTransactionRow)
    (l : List DiscountRow) (h : transform_discounts (some tbl) = Except.ok l) :
    transform_discounts none =
      Except.error ("transactions_df is None. Check if the table was read correctly.") ∧
    ∀ r, r ∈ l ↔ ∃ t ∈ tbl, t.promo_code_used.isSome ∧ r = discountProj t := by
  refine ⟨rfl, ?_⟩
  have hl : l = (tbl.map discountProj).filter fun r => r.promo_code_used.isSome :=
    (Except.ok.inj h).symm
  subst hl
  intro r
  simp only [List.mem_filter, List.mem_map]
  constructor
  · rintro ⟨⟨t, ht, rfl⟩, hp⟩
    exact ⟨t, ht, hp, rfl⟩
  · rintro ⟨t, ht, hp, rfl⟩
    exact ⟨⟨t, ht, rfl⟩, hp⟩

/-- Witness for C6 at a two-row table: one row with a promo code survives,
the row with a null promo code is dropped. -/
theorem C6_discounts_precondition_witness :
    transform_discounts none =
      Except.error ("transactions_df is None. Check if the table was read correctly.") ∧
    ∀ r, r ∈ [(⟨some 1, some ("PC"), some 10, some 7, some ("p1"), none⟩ : DiscountRow)] ↔
      ∃ t ∈ [(⟨some 1, some ("PC"), some 10, some 7, some ("p1"), none⟩ : SinkTransactionRow),
             ⟨some 2, none, none, some 8, some ("p2"), none⟩],
        t.promo_code_used.isSome ∧ r = discountProj t :=
  C6_discounts_precondition
    [⟨some 1, some ("PC"), some 10, some 7, some ("p1"), none⟩,
     ⟨some 2, none, none, some 8, some ("p2"), none⟩]
    [⟨some 1, some ("PC"), some 10, some 7, some ("p1"), none⟩] rfl

/-- C8: the product-variants output never contains a null size, color, or
stock_quantity — `fillna` substitutes "Unknown"/"Unknown"/0 for null cells —
and the output carries no duplicate rows (full-row deduplication). -/
theorem C8_variants_defaults_nodup (l : List ProductRow) :
    (transform_product_variants l).Nodup ∧
    (∀ r ∈ transform_product_variants l,
        r.size.isSome ∧ r.color.isSome ∧ r.stock_quantity.isSome) ∧
    (∀ r, r ∈ transform_product_variants l ↔
        ∃ p ∈ l,
          r = ⟨p.product_id, some (p.size.getD unknownDefault),
               some (p.color.getD unknownDefault), some (p.quantity.getD 0)⟩) := by
  have hmem : ∀ r, r ∈ transform_product_variants l ↔
      ∃ p ∈ l,
        r = ⟨p.product_id, some (p.size.getD unknownDefault),
             some (p.color.getD unknownDefault), some (p.quantity.getD 0)⟩ := by
    intro r
    unfold transform_product_variants
    simp only [List.mem_dedup, List.mem_map, fillnaVariant]
    constructor
    · rintro ⟨v, ⟨p, hp, rfl⟩, rfl⟩
      exact ⟨p, hp, rfl⟩
    · rintro ⟨p, hp, rfl⟩
      exact ⟨⟨p.product_id, p.size, p.color, p.quantity⟩, ⟨p, hp, rfl⟩, rfl⟩
  refine ⟨List.nodup_dedup _, ?_, hmem⟩
  intro r hr
  obtain ⟨p, _, rfl⟩ := (hmem r).mp hr
  exact ⟨rfl, rfl, rfl⟩

/-- Witness for C8 at a one-row products table whose size, color, and
quantity cells are all null: the defaults appear in the output. -/
theorem C8_variants_defaults_nodup_witness :
    (⟨some ("u1"), some (unknownDefault), some (unknownDefault), some 0⟩ :
      ProductVariantRow) ∈
      transform_product_variants
        [⟨some ("u1"), none, none, none, none, none, none, none, none,
          none, none, none, none, none⟩] :=
  ((C8_variants_defaults_nodup
      [⟨some ("u1"), none, none, none, none, none, none, none, none,
        none, none, none, none, none⟩]).2.2 _).mpr
    ⟨_, List.mem_singleton.mpr rfl, rfl⟩

/-- C9: the product-categories output contains no duplicate
(category_id, category_name) pairs, and every output row's `category_id` is
populated from some input row's `product_id` (with `category_name` from the
same row's `category`). -/
theorem C9_categories_nodup_source (l : List ProductRow) :
    (transform_product_categories l).Nodup ∧
    (∀ r, r ∈ transform_product_categories l ↔
        ∃ p ∈ l, r.category_id = p.product_id ∧ r.category_name = p.category) := by
  refine ⟨List.nodup_dedup _, ?_⟩
  intro r
  obtain ⟨rc, rn⟩ := r
  unfold transform_product_categories
  simp only [List.mem_dedup, List.mem_map]
  constructor
  · rintro ⟨p, hp, h⟩
    cases h
    exact ⟨p, hp, rfl, rfl⟩
  · rintro ⟨p, hp, h1, h2⟩
    cases h1
    cases h2
    exact ⟨p, hp, rfl⟩

/-- Witness for C9 at a one-row products table: the single output pair takes
its `category_id` from the row's `product_id`. -/
theorem C9_categories_nodup_source_witness :
    (⟨some ("u1"), some ("Toys")⟩ : ProductCategoryRow) ∈
      transform_product_categories
        [⟨some ("u1"), none, none, some ("Toys"), none, none, none, none,
          none, none, none, none, none, none⟩] :=
  ((C9_categories_nodup_source
      [⟨some ("u1"), none, none, some ("Toys"), none, none, none, none,
        none, none, none, none, none, none⟩]).2 _).mpr
    ⟨_, List.mem_singleton.mpr rfl, rfl, rfl⟩

/-- Every row produced by the left join for one kept transaction record
carries that record's customer_id and product_id and the parsed date. -/
theorem leftJoinRows_fields (custs : List RawCustomerRow) (cid : Option Int)
    (pid : Option String) (d : Timestamp) :
    ∀ r ∈ leftJoinRows custs cid pid d,
      r.customer_id = cid ∧ r.product_id = pid ∧ r.purchase_date = some d := by
  intro r hr
  unfold leftJoinRows at hr
  by_cases he : (custs.filter fun c => joinMatches cid c).isEmpty
  · rw [if_pos he] at hr
    rw [List.mem_singleton] at hr
    subst hr
    exact ⟨rfl, rfl, rfl⟩
  · rw [if_neg he] at hr
    obtain ⟨c, _, rfl⟩ := List.mem_map.mp hr
    exact ⟨rfl, rfl, rfl⟩

/-- The left join emits at least one row for every kept transaction record,
and that row carries the record's own columns. -/
theorem exists_self_mem_leftJoinRows (custs : List RawCustomerRow)
    (cid : Option Int) (pid : Option String) (d : Timestamp) :
    ∃ r ∈ leftJoinRows custs cid pid d,
      r.customer_id = cid ∧ r.product_id = pid ∧ r.purchase_date = some d := by
  unfold leftJoinRows
  by_cases he : (custs.filter fun c => joinMatches cid c).isEmpty
  · rw [if_pos he]
    exact ⟨_, List.mem_singleton.mpr rfl, rfl, rfl, rfl⟩
  · rw [if_neg he]
    obtain ⟨c, hc⟩ := List.exists_mem_of_ne_nil
      (custs.filter fun c => joinMatches cid c)
      (fun hnil => he (by rw [hnil]; rfl))
    exact ⟨_, List.mem_map.mpr ⟨c, hc, rfl⟩, rfl, rfl, rfl⟩

/-- Membership characterization of the transactions transform output. -/
theorem mem_transform_transactions (txns : List RawTransactionRow)
    (custs : List RawCustomerRow) (r : TransactionRow) :
    r ∈ transform_transactions txns custs ↔
      ∃ t ∈ txns, ∃ d, parsedDate t = some d ∧
        r ∈ leftJoinRows custs t.userId t.productId d := by
  unfold transform_transactions
  rw [List.mem_flatMap]
  constructor
  · rintro ⟨x, hx, hr⟩
    obtain ⟨t, ht, hxt⟩ := List.mem_filterMap.mp hx
    obtain ⟨d, hd, hmk⟩ := Option.map_eq_some'.mp hxt
    subst hmk
    exact ⟨t, ht, d, hd, hr⟩
  · rintro ⟨t, ht, d, hd, hr⟩
    exact ⟨(t.userId, t.productId, d),
      List.mem_filterMap.mpr ⟨t, ht, by rw [hd]; rfl⟩, hr⟩

/-- Every row of the transactions transform output has a non-null
purchase_date (the `dropna` step removes the null ones before the join). -/
theorem mem_transform_purchase_isSome (txns : List RawTransactionRow)
    (custs : List RawCustomerRow) (r : TransactionRow)
    (hr : r ∈ transform_transactions txns custs) : r.purchase_date.isSome := by
  obtain ⟨t, _, d, _, hj⟩ := (mem_transform_transactions txns custs r).mp hr
  have := (leftJoinRows_fields custs t.userId t.productId d r hj).2.2
  rw [this]
  rfl

/-- C3: a transaction record contributes rows to the transactions output if
and only if its `Time stamp` cell parses under the exact pattern
`dd/MM/yyyy H:mm` (strictly, so invalid calendar dates such as 31/02/2024 are
rejected); rows that fail to parse are silently dropped, never failed. -/
theorem C3_row_kept_iff_timestamp_parses (txns : List RawTransactionRow)
    (custs : List RawCustomerRow) (t : RawTransactionRow) (ht : t ∈ txns) :
    (∃ r ∈ transform_transactions txns custs,
        r.customer_id = t.userId ∧ r.product_id = t.productId ∧
        r.purchase_date = parsedDate t) ↔ (parsedDate t).isSome := by
  constructor
  · rintro ⟨r, hr, -, -, hd⟩
    rw [← hd]
    exact mem_transform_purchase_isSome txns custs r hr
  · intro hs
    obtain ⟨d, hd⟩ := Option.isSome_iff_exists.mp hs
    obtain ⟨r, hr, h1, h2, h3⟩ :=
      exists_self_mem_leftJoinRows custs t.userId t.productId d
    refine ⟨r, ?_, h1, h2, by rw [h3, hd]⟩
    exact (mem_transform_transactions txns custs r).mpr ⟨t, ht, d, hd, hr⟩

/-- Witness for C3: a record dated 01/01/2024 survives to the output, a
record dated 31/02/2024 (an invalid calendar date) is dropped. -/
theorem C3_row_kept_iff_timestamp_parses_witness :
    (∃ r ∈ transform_transactions [txnValid] [],
        r.customer_id = txnValid.userId ∧ r.product_id = txnValid.productId ∧
        r.purchase_date = parsedDate txnValid) ∧
    ¬(∃ r ∈ transform_transactions [txnInvalidDate] [],
        r.customer_id = txnInvalidDate.userId ∧
        r.product_id = txnInvalidDate.productId ∧
        r.purchase_date = parsedDate txnInvalidDate) :=
  ⟨(C3_row_kept_iff_timestamp_parses [txnValid] [] txnValid
      (List.mem_singleton.mpr rfl)).mpr (by decide),
   fun h => absurd
     ((C3_row_kept_iff_timestamp_parses [txnInvalidDate] [] txnInvalidDate
        (List.mem_singleton.mpr rfl)).mp h) (by decide)⟩

/-- C4 counterexample: the claim demands a non-null customer_id in every
transactions output row, but a record with a valid timestamp and a null
`user id` cell survives `dropna(subset=["purchase_date"])` and reaches the
output with a null customer_id key. -/
theorem C4_counterexample :
    ∃ r ∈ transform_transactions [txnNullUser] [],
      r.customer_id = none ∧ r.purchase_date.isSome := by decide

/-- C4 (amended): the only key column the pipeline actually enforces to be
non-null is `purchase_date` of the transactions output (nulls are dropped by
`dropna`); the remaining declared key columns pass source nulls through. -/
theorem C4_amended_purchase_date_nonnull (txns : List RawTransactionRow)
    (custs : List RawCustomerRow) (r : TransactionRow)
    (hr : r ∈ transform_transactions txns custs) : r.purchase_date.isSome :=
  mem_transform_purchase_isSome txns custs r hr

/-- Witness for the amended C4 at a concrete output row. -/
theorem C4_amended_purchase_date_nonnull_witness :
    (⟨some 7, some ("p1"), some ⟨2024, 1, 1, 0, 0⟩,
      none, none, none, none, none⟩ : TransactionRow).purchase_date.isSome :=
  C4_amended_purchase_date_nonnull [txnValid] [] _ (by decide)

/-- C5: the transaction-to-customer join is a left join on customer_id — a
record whose timestamp parses but matches no customer row still appears in
the output, with all five customer-derived fields null. -/
theorem C5_left_join_unmatched (txns : List RawTransactionRow)
    (custs : List RawCustomerRow) (t : RawTransactionRow) (d : Timestamp)
    (ht : t ∈ txns) (hd : parsedDate t = some d)
    (hnm : ∀ c ∈ custs, joinMatches t.userId c = false) :
    (⟨t.userId, t.productId, some d, none, none, none, none, none⟩ :
        TransactionRow) ∈ transform_transactions txns custs := by
  rw [mem_transform_transactions]
  refine ⟨t, ht, d, hd, ?_⟩
  have hfe : (custs.filter fun c => joinMatches t.userId c) = [] := by
    rw [List.filter_eq_nil_iff]
    intro c hc
    rw [hnm c hc]
    exact Bool.false_ne_true
  unfold leftJoinRows
  rw [hfe]
  exact List.mem_singleton.mpr rfl

/-- Witness for C5: transaction of customer 7 against a customers table that
only contains customer 9. -/
theorem C5_left_join_unmatched_witness :
    (⟨txnValid.userId, txnValid.productId, some ⟨2024, 1, 1, 0, 0⟩,
      none, none, none, none, none⟩ : TransactionRow) ∈
      transform_transactions [txnValid] [custNine] :=
  C5_left_join_unmatched [txnValid] [custNine] txnValid ⟨2024, 1, 1, 0, 0⟩
    (List.mem_singleton.mpr rfl) (by decide) (by decide)

/-- C10: the output of the transactions transform is per-record additive, a
kept record contributes exactly `max 1 k` rows where `k` is the number of raw
customer rows sharing its customer_id, and each matched row draws the five
customer-derived fields from the matching customers-CSV row — so a customers
CSV repeating one Customer ID multiplies the matching transaction rows. -/
theorem C10_customer_multiplicity :
    (∀ a b custs, transform_transactions (a ++ b) custs =
        transform_transactions a custs ++ transform_transactions b custs) ∧
    (∀ t custs, (parsedDate t).isSome →
        (transform_transactions [t] custs).length =
          max 1 (custs.countP fun c => joinMatches t.userId c)) ∧
    (∀ t custs c d, parsedDate t = some d → c ∈ custs →
        joinMatches t.userId c = true →
        (⟨t.userId, t.productId, some d, c.purchaseAmountUsd, c.shippingType,
          c.discountApplied, c.promoCodeUsed, c.paymentMethod⟩ :
            TransactionRow) ∈ transform_transactions [t] custs) := by
  refine ⟨?_, ?_, ?_⟩
  · intro a b custs
    unfold transform_transactions
    rw [List.filterMap_append, List.flatMap_append]
  · intro t custs hs
    obtain ⟨d, hd⟩ := Option.isSome_iff_exists.mp hs
    have h1 : transform_transactions [t] custs =
        leftJoinRows custs t.userId t.productId d := by
      unfold transform_transactions
      rw [show List.filterMap
            (fun t => (parsedDate t).map fun d => (t.userId, t.productId, d))
            [t] = [(t.userId, t.productId, d)] by
          simp [List.filterMap, hd]]
      simp [List.flatMap]
    rw [h1]
    unfold leftJoinRows
    by_cases he : (custs.filter fun c => joinMatches t.userId c).isEmpty
    · rw [if_pos he, List.countP_eq_length_filter,
        List.isEmpty_iff.mp he]
      rfl
    · rw [if_neg he, List.length_map, List.countP_eq_length_filter]
      have hpos : 0 <
          (custs.filter fun c => joinMatches t.userId c).length := by
        rcases Nat.eq_zero_or_pos
            (custs.filter fun c => joinMatches t.userId c).length with h | h
        · exact absurd (List.isEmpty_iff.mpr (List.length_eq_zero.mp h)) he
        · exact h
      exact (Nat.max_eq_right hpos).symm
  · intro t custs c d hd hc hm
    rw [mem_transform_transactions]
    refine ⟨t, List.mem_singleton.mpr rfl, d, hd, ?_⟩
    have hcf : c ∈ custs.filter fun c => joinMatches t.userId c :=
      List.mem_filter.mpr ⟨hc, hm⟩
    unfold leftJoinRows
    rw [if_neg (by
      intro he
      rw [List.isEmpty_iff.mp he] at hcf
      exact List.not_mem_nil c hcf)]
    exact List.mem_map.mpr ⟨c, hcf, rfl⟩

/-- Witness for C10: customer id 77 appears on two customers-CSV rows, so
one matching transaction record yields two output rows. -/
theorem C10_customer_multiplicity_witness :
    (transform_transactions [txnSeventySeven]
        [custSeventySevenA, custSeventySevenB]).length =
      max 1 ([custSeventySevenA, custSeventySevenB].countP fun c =>
        joinMatches txnSeventySeven.userId c) :=
  C10_customer_multiplicity.2.1 txnSeventySeven
    [custSeventySevenA, custSeventySevenB] (by decide)

/-- A persist call's events always count as one attempted write of its
table (the deferred scan event is not a write). -/
theorem attemptedWrites_write_append (wf : String → Bool) (n : String)
    (p : Payload) (st : SinkState) (es : List Event) :
    attemptedWrites ((write_to_postgres wf n p st).events ++ es) =
      n :: attemptedWrites es := by
  unfold write_to_postgres
  by_cases h : wf n
  · rw [if_pos h]
    rfl
  · rw [if_neg h]
    cases p <;> rfl

/-- A persist call's events count as a successful write exactly when its
own failure flag is off. -/
theorem successfulWrites_write_append (wf : String → Bool) (n : String)
    (p : Payload) (st : SinkState) (es : List Event) :
    successfulWrites ((write_to_postgres wf n p st).events ++ es) =
      if wf n then successfulWrites es else n :: successfulWrites es := by
  unfold write_to_postgres
  by_cases h : wf n
  · rw [if_pos h, if_pos h]
    rfl
  · rw [if_neg h, if_neg h]
    cases p <;> rfl

/-- Every table of a persist plan is attempted, whatever fails. -/
theorem attemptedWrites_runWrites (wf : String → Bool)
    (plan : List (String × Payload)) (st : SinkState) :
    attemptedWrites (runWrites wf plan st).events = plan.map Prod.fst := by
  induction plan generalizing st with
  | nil => rfl
  | cons hd tl ih =>
    obtain ⟨n, p⟩ := hd
    show attemptedWrites ((write_to_postgres wf n p st).events ++
      (runWrites wf tl (write_to_postgres wf n p st).sink).events) = _
    rw [attemptedWrites_write_append, ih]
    rfl

/-- A table of a persist plan is written successfully exactly when its own
failure flag is off, independently of every sibling's flag. -/
theorem successfulWrites_runWrites (wf : String → Bool)
    (plan : List (String × Payload)) (st : SinkState) :
    successfulWrites (runWrites wf plan st).events =
      (plan.map Prod.fst).filter fun n => !wf n := by
  induction plan generalizing st with
  | nil => rfl
  | cons hd tl ih =>
    obtain ⟨n, p⟩ := hd
    show successfulWrites ((write_to_postgres wf n p st).events ++
      (runWrites wf tl (write_to_postgres wf n p st).sink).events) = _
    rw [successfulWrites_write_append, ih]
    by_cases h : wf n
    · simp [h]
    · simp [h]

/-- Names of a persist plan, in the fixed source order. -/
theorem persistPlan_names (t : List TransactionRow) :
    (persistPlan t).map Prod.fst = sevenTableNames := rfl

/-- A content-untracked persist call never changes the tracked sink state. -/
theorem wtp_sink_plain (wf : String → Bool) (n : String) (st : SinkState) :
    (write_to_postgres wf n Payload.plain st).sink = st := by
  unfold write_to_postgres
  by_cases h : wf n
  · rw [if_pos h]
  · rw [if_neg h]

/-- The discounts write action does not change the transactions table. -/
theorem wtp_sink_scan (wf : String → Bool) (n : String) (st : SinkState) :
    (write_to_postgres wf n Payload.discountsScan st).sink = st := by
  unfold write_to_postgres
  by_cases h : wf n
  · rw [if_pos h]
  · rw [if_neg h]

/-- A successful transactions write appends its rows to the sink table. -/
theorem wtp_sink_data (wf : String → Bool) (n : String)
    (rs : List TransactionRow) (st : SinkState) (h : wf n = false) :
    (write_to_postgres wf n (Payload.transactionsData rs) st).sink =
      ⟨some ((st.transactionsTable.getD []) ++ rs.map toSinkRow)⟩ := by
  unfold write_to_postgres
  rw [if_neg (by rw [h]; exact Bool.false_ne_true)]

/-- Only the discounts write produces a scanned input. -/
theorem wtp_scanned_plain (wf : String → Bool) (n : String) (st : SinkState) :
    (write_to_postgres wf n Payload.plain st).discountsScannedInput = none := by
  unfold write_to_postgres
  by_cases h : wf n
  · rw [if_pos h]
  · rw [if_neg h]

/-- The transactions write produces no scanned input. -/
theorem wtp_scanned_data (wf : String → Bool) (n : String)
    (rs : List TransactionRow) (st : SinkState) :
    (write_to_postgres wf n
      (Payload.transactionsData rs) st).discountsScannedInput = none := by
  unfold write_to_postgres
  by_cases h : wf n
  · rw [if_pos h]
  · rw [if_neg h]

/-- Only the discounts write produces written discount rows. -/
theorem wtp_written_plain (wf : String → Bool) (n : String) (st : SinkState) :
    (write_to_postgres wf n Payload.plain st).discountsWritten = none := by
  unfold write_to_postgres
  by_cases h : wf n
  · rw [if_pos h]
  · rw [if_neg h]

/-- The transactions write produces no written discount rows. -/
theorem wtp_written_data (wf : String → Bool) (n : String)
    (rs : List TransactionRow) (st : SinkState) :
    (write_to_postgres wf n
      (Payload.transactionsData rs) st).discountsWritten = none := by
  unfold write_to_postgres
  by_cases h : wf n
  · rw [if_pos h]
  · rw [if_neg h]

/-- A successful discounts write scans the transactions table as it stands
at that point of the run. -/
theorem wtp_scanned_scan (wf : String → Bool) (n : String) (st : SinkState)
    (h : wf n = false) :
    (write_to_postgres wf n Payload.discountsScan st).discountsScannedInput =
      some (st.transactionsTable.getD []) := by
  unfold write_to_postgres
  rw [if_neg (by rw [h]; exact Bool.false_ne_true)]

/-- A successful discounts write writes `transform_discounts` of the rows
its deferred scan saw. -/
theorem wtp_written_scan (wf : String → Bool) (n : String) (st : SinkState)
    (h : wf n = false) :
    (write_to_postgres wf n Payload.discountsScan st).discountsWritten =
      (transform_discounts (some (st.transactionsTable.getD []))).toOption := by
  unfold write_to_postgres
  rw [if_neg (by rw [h]; exact Bool.false_ne_true)]

/-- Events of a successful transactions write. -/
theorem wtp_events_data (wf : String → Bool) (n : String)
    (rs : List TransactionRow) (st : SinkState) (h : wf n = false) :
    (write_to_postgres wf n (Payload.transactionsData rs) st).events =
      [Event.writeSink n] := by
  unfold write_to_postgres
  rw [if_neg (by rw [h]; exact Bool.false_ne_true)]

/-- Events of a successful discounts write: the deferred transactions scan,
then the write itself. -/
theorem wtp_events_scan (wf : String → Bool) (n : String) (st : SinkState)
    (h : wf n = false) :
    (write_to_postgres wf n Payload.discountsScan st).events =
      [Event.scanSink tnTransactions, Event.writeSink n] := by
  unfold write_to_postgres
  rw [if_neg (by rw [h]; exact Bool.false_ne_true)]

/-- Merging an absent first component is the identity. -/
theorem mergeOpt_none_left {a : Type} (o : Option a) : mergeOpt none o = o := rfl

/-- A present first component wins the merge. -/
theorem mergeOpt_some_left {a : Type} (x : a) (o : Option a) :
    mergeOpt (some x) o = some x := rfl

/-- Merging with an absent second component is the identity. -/
theorem mergeOpt_none_right {a : Type} (o : Option a) :
    mergeOpt o none = o := by
  cases o <;> rfl

/-- Through the seven-step persist plan (with the transactions and discounts
writes succeeding), the discounts scan sees the sink's transactions table
with this run's rows already appended, the written discounts are
`transform_discounts` of exactly that table, and in the event trace the
scan comes after the transactions write. -/
theorem runWrites_persistPlan_spec (wf : String → Bool) (st : SinkState)
    (t : List TransactionRow) (ht : wf ("transactions") = false)
    (hd : wf ("discounts") = false) :
    (runWrites wf (persistPlan t) st).discountsScannedInput =
      some ((st.transactionsTable.getD []) ++ t.map toSinkRow) ∧
    (runWrites wf (persistPlan t) st).discountsWritten =
      (transform_discounts
        (some ((st.transactionsTable.getD []) ++ t.map toSinkRow))).toOption ∧
    ∃ pre mid post, (runWrites wf (persistPlan t) st).events =
      pre ++ Event.writeSink tnTransactions ::
        (mid ++ Event.scanSink tnTransactions :: post) := by
  refine ⟨?_, ?_, ?_⟩
  · simp only [persistPlan, runWrites, mergeOpt_none_left, mergeOpt_some_left,
      wtp_sink_plain, wtp_sink_scan, wtp_sink_data, wtp_scanned_plain,
      wtp_scanned_data, wtp_scanned_scan, wtp_written_plain, wtp_written_data,
      mergeOpt_none_right, ht, hd, Option.getD_some]
  · simp only [persistPlan, runWrites, mergeOpt_none_left, mergeOpt_some_left,
      wtp_sink_plain, wtp_sink_scan, wtp_sink_data, wtp_scanned_plain,
      wtp_scanned_data, wtp_written_plain, wtp_written_data, wtp_written_scan,
      mergeOpt_none_right, ht, hd, Option.getD_some]
  · simp only [persistPlan, runWrites, tnTransactions, wtp_sink_plain,
      wtp_sink_scan, wtp_sink_data, wtp_events_data, wtp_events_scan, ht, hd,
      List.cons_append, List.nil_append, List.append_nil, List.append_assoc]
    generalize (write_to_postgres wf ("customers") Payload.plain st).events = e1
    generalize (write_to_postgres wf ("products") Payload.plain st).events = e2
    generalize (write_to_postgres wf ("interactions") Payload.plain
      (⟨some ((st.transactionsTable.getD []) ++ t.map toSinkRow)⟩ :
        SinkState)).events = e4
    generalize (write_to_postgres wf ("product_categories") Payload.plain
      (⟨some ((st.transactionsTable.getD []) ++ t.map toSinkRow)⟩ :
        SinkState)).events = e6
    generalize (write_to_postgres wf ("product_variants") Payload.plain
      (⟨some ((st.transactionsTable.getD []) ++ t.map toSinkRow)⟩ :
        SinkState)).events = e7
    exact ⟨e1 ++ e2, e4, Event.writeSink ("discounts") :: (e6 ++ e7),
      by simp [List.append_assoc]⟩

/-- Outcome of a fully-loading run whose sink probe succeeds: three loads,
the transactions schema probe, then the seven persist attempts carrying the
deferred discounts scan. -/
theorem run_etl_events (cfg : EtlConfig) (st0 : SinkState)
    (tbl : List SinkTransactionRow)
    (h1 : cfg.loadFails cfg.customerPath = false)
    (h2 : cfg.loadFails cfg.productPath = false)
    (h3 : cfg.loadFails cfg.transactionPath = false)
    (h4 : cfg.readFails = false)
    (h5 : st0.transactionsTable = some tbl) :
    run_etl cfg st0 =
      ⟨[Event.loadCsv cfg.customerPath, Event.loadCsv cfg.productPath,
        Event.loadCsv cfg.transactionPath, Event.readSink tnTransactions] ++
          (runWrites cfg.writeFails
            (persistPlan (transform_transactions cfg.loadTransactions
              cfg.loadCustomers)) st0).events,
       (runWrites cfg.writeFails
         (persistPlan (transform_transactions cfg.loadTransactions
           cfg.loadCustomers)) st0).sink,
       (runWrites cfg.writeFails
         (persistPlan (transform_transactions cfg.loadTransactions
           cfg.loadCustomers)) st0).discountsScannedInput,
       (runWrites cfg.writeFails
         (persistPlan (transform_transactions cfg.loadTransactions
           cfg.loadCustomers)) st0).discountsWritten⟩ := by
  unfold run_etl
  rw [if_neg (by rw [h1]; exact Bool.false_ne_true),
    if_neg (by rw [h2]; exact Bool.false_ne_true),
    if_neg (by rw [h3]; exact Bool.false_ne_true)]
  simp only [read_from_postgres, h4, h5, Bool.false_eq_true, if_false]

/-- C1: the discounts table is derived from a re-read of the `transactions`
sink table, not from the in-memory transformed transactions — and because
the JDBC scan backing that read is lazy, executing only inside the discounts
write action, after the transactions append, the discounts input reflects
the current run's persisted transactions: the sink's pre-run rows plus the
rows this run appended. -/
theorem C1_discounts_reflect_persisted (cfg : EtlConfig) (st0 : SinkState)
    (tbl0 : List SinkTransactionRow)
    (h1 : cfg.loadFails cfg.customerPath = false)
    (h2 : cfg.loadFails cfg.productPath = false)
    (h3 : cfg.loadFails cfg.transactionPath = false)
    (h4 : cfg.readFails = false)
    (h5 : st0.transactionsTable = some tbl0)
    (h6 : cfg.writeFails ("transactions") = false)
    (h7 : cfg.writeFails ("discounts") = false) :
    (run_etl cfg st0).discountsScannedInput =
      some (tbl0 ++ (transform_transactions cfg.loadTransactions
        cfg.loadCustomers).map toSinkRow) ∧
    (run_etl cfg st0).discountsWritten =
      (transform_discounts (some (tbl0 ++
        (transform_transactions cfg.loadTransactions
          cfg.loadCustomers).map toSinkRow))).toOption ∧
    ∃ pre mid post, (run_etl cfg st0).events =
      pre ++ Event.writeSink tnTransactions ::
        (mid ++ Event.scanSink tnTransactions :: post) := by
  rw [run_etl_events cfg st0 tbl0 h1 h2 h3 h4 h5]
  obtain ⟨hscan, hwritten, pre, mid, post, hev⟩ :=
    runWrites_persistPlan_spec cfg.writeFails st0
      (transform_transactions cfg.loadTransactions cfg.loadCustomers) h6 h7
  refine ⟨?_, ?_, ?_⟩
  · show (runWrites cfg.writeFails _ st0).discountsScannedInput = _
    rw [hscan, h5]
    rfl
  · show (runWrites cfg.writeFails _ st0).discountsWritten = _
    rw [hwritten, h5]
    rfl
  · refine ⟨[Event.loadCsv cfg.customerPath, Event.loadCsv cfg.productPath,
      Event.loadCsv cfg.transactionPath, Event.readSink tnTransactions] ++ pre,
      mid, post, ?_⟩
    show [Event.loadCsv cfg.customerPath, Event.loadCsv cfg.productPath,
        Event.loadCsv cfg.transactionPath, Event.readSink tnTransactions] ++
      (runWrites cfg.writeFails _ st0).events = _
    rw [hev]
    simp [List.append_assoc]

/-- Witness for C1 at the demo run over a sink holding an empty
transactions table. -/
theorem C1_discounts_reflect_persisted_witness :
    (run_etl cfgDemo sinkDemo).discountsScannedInput =
      some ([] ++ (transform_transactions cfgDemo.loadTransactions
        cfgDemo.loadCustomers).map toSinkRow) ∧
    (run_etl cfgDemo sinkDemo).discountsWritten =
      (transform_discounts (some ([] ++
        (transform_transactions cfgDemo.loadTransactions
          cfgDemo.loadCustomers).map toSinkRow))).toOption ∧
    ∃ pre mid post, (run_etl cfgDemo sinkDemo).events =
      pre ++ Event.writeSink tnTransactions ::
        (mid ++ Event.scanSink tnTransactions :: post) :=
  C1_discounts_reflect_persisted cfgDemo sinkDemo [] rfl rfl rfl rfl rfl rfl rfl

/-- C7: in a run that reaches the persist phase, all seven tables' writes are
attempted and each succeeds exactly when its own failure flag is off — write
failures are logged and swallowed, never propagated, so one table's failure
has no effect on its siblings — whereas a load failure re-raises to the
top-level handler and aborts the run before any write is attempted. -/
theorem C7_write_swallow_load_reraise (cfg : EtlConfig) (st0 : SinkState)
    (tbl : List SinkTransactionRow)
    (h1 : cfg.loadFails cfg.customerPath = false)
    (h2 : cfg.loadFails cfg.productPath = false)
    (h3 : cfg.loadFails cfg.transactionPath = false)
    (h4 : cfg.readFails = false)
    (h5 : st0.transactionsTable = some tbl) :
    attemptedWrites (run_etl cfg st0).events = sevenTableNames ∧
    successfulWrites (run_etl cfg st0).events =
      sevenTableNames.filter (fun n => !cfg.writeFails n) ∧
    ∀ cfg2 st2, (cfg2 : EtlConfig).loadFails cfg2.customerPath = true →
      attemptedWrites (run_etl cfg2 st2).events = [] ∧
      Event.etlError ∈ (run_etl cfg2 st2).events := by
  rw [run_etl_events cfg st0 tbl h1 h2 h3 h4 h5]
  refine ⟨?_, ?_, ?_⟩
  · show attemptedWrites (runWrites cfg.writeFails _ st0).events = _
    rw [attemptedWrites_runWrites, persistPlan_names]
  · show successfulWrites (runWrites cfg.writeFails _ st0).events = _
    rw [successfulWrites_runWrites, persistPlan_names]
  · intro cfg2 st2 hf
    unfold run_etl
    rw [if_pos hf]
    exact ⟨rfl, by right; exact List.mem_singleton.mpr rfl⟩

/-- Witness for C7 at the demo run (no failure flags set). -/
theorem C7_write_swallow_load_reraise_witness :
    attemptedWrites (run_etl cfgDemo sinkDemo).events = sevenTableNames ∧
    successfulWrites (run_etl cfgDemo sinkDemo).events =
      sevenTableNames.filter (fun n => !cfgDemo.writeFails n) ∧
    ∀ cfg2 st2, (cfg2 : EtlConfig).loadFails cfg2.customerPath = true →
      attemptedWrites (run_etl cfg2 st2).events = [] ∧
      Event.etlError ∈ (run_etl cfg2 st2).events :=
  C7_write_swallow_load_reraise cfgDemo sinkDemo [] rfl rfl rfl rfl rfl

/-- A predicate-satisfying prefix passes through `takeWhile`. -/
theorem takeWhile_all_append (p : Char → Bool) (l1 l2 : List Char)
    (h : ∀ c ∈ l1, p c = true) :
    (l1 ++ l2).takeWhile p = l1 ++ l2.takeWhile p := by
  induction l1 with
  | nil => rfl
  | cons a t ih =>
    rw [List.cons_append, List.takeWhile_cons,
      if_pos (h a (List.mem_cons_self a t)), List.cons_append,
      ih fun c hc => h c (List.mem_cons_of_mem a hc)]

/-- A predicate-satisfying prefix is consumed by `dropWhile`. -/
theorem dropWhile_all_append (p : Char → Bool) (l1 l2 : List Char)
    (h : ∀ c ∈ l1, p c = true) :
    (l1 ++ l2).dropWhile p = l2.dropWhile p := by
  induction l1 with
  | nil => rfl
  | cons a t ih =>
    rw [List.cons_append, List.dropWhile_cons,
      if_pos (h a (List.mem_cons_self a t)),
      ih fun c hc => h c (List.mem_cons_of_mem a hc)]

/-- `takeWhile` keeps a list all of whose elements satisfy the predicate. -/
theorem takeWhile_all_eq_self (p : Char → Bool) (l : List Char)
    (h : ∀ c ∈ l, p c = true) : l.takeWhile p = l := by
  have := takeWhile_all_append p l [] h
  rw [List.append_nil] at this
  rw [this]
  exact List.append_nil l

/-- `dropWhile` erases a list all of whose elements satisfy the predicate. -/
theorem dropWhile_all_eq_nil (p : Char → Bool) (l : List Char)
    (h : ∀ c ∈ l, p c = true) : l.dropWhile p = [] := by
  have := dropWhile_all_append p l [] h
  rw [List.append_nil] at this
  exact this

/-- `takeWhile` stops at a failing head. -/
theorem takeWhile_cons_of_neg (p : Char → Bool) (c : Char) (l : List Char)
    (h : p c = false) : (c :: l).takeWhile p = [] := by
  rw [List.takeWhile_cons, if_neg (by rw [h]; exact Bool.false_ne_true)]

/-- `dropWhile` keeps a failing head. -/
theorem dropWhile_cons_of_neg (p : Char → Bool) (c : Char) (l : List Char)
    (h : p c = false) : (c :: l).dropWhile p = c :: l := by
  rw [List.dropWhile_cons, if_neg (by rw [h]; exact Bool.false_ne_true)]

/-- In a digit/comma list containing a comma, `dropWhile isDigit` stops at
the first comma, whatever follows the list. -/
theorem dropWhile_digit_comma_head (cs t : List Char)
    (hall : ∀ c ∈ cs, isDigitOrComma c = true) (hc : ',' ∈ cs) :
    ∃ u, (cs ++ t).dropWhile Char.isDigit = ',' :: u := by
  induction cs with
  | nil => cases hc
  | cons a l ih =>
    by_cases hd : a.isDigit = true
    · have hmem : ',' ∈ l := by
        rcases List.mem_cons.mp hc with h | h
        · rw [← h] at hd
          exact absurd hd (by decide)
        · exact h
      rw [List.cons_append, List.dropWhile_cons, if_pos hd]
      exact ih (fun c hcl => hall c (List.mem_cons_of_mem a hcl)) hmem
    · have ha : isDigitOrComma a = true := hall a (List.mem_cons_self a l)
      have haeq : a = ',' := by
        unfold isDigitOrComma at ha
        rw [Bool.not_eq_true] at hd
        rw [hd, Bool.false_or] at ha
        exact beq_iff_eq.mp ha
      subst haeq
      exact ⟨l ++ t, by
        rw [List.cons_append, List.dropWhile_cons,
          if_neg (by rw [Bool.not_eq_true] at hd; rw [hd]; exact Bool.false_ne_true)]⟩

/-- A `$` followed by a digit/comma run and nothing else captures exactly
that run. -/
theorem extract_group_nofrac (ds : List Char) (hne : ds ≠ [])
    (hall : ∀ c ∈ ds, isDigitOrComma c = true) :
    extractPriceGroup ('$' :: ds) = some ds := by
  have h1 : ds.takeWhile isDigitOrComma = ds := takeWhile_all_eq_self _ _ hall
  have h2 : ds.dropWhile isDigitOrComma = [] := dropWhile_all_eq_nil _ _ hall
  unfold extractPriceGroup
  rw [h1, h2, if_pos ⟨rfl, fun h => hne (List.isEmpty_iff.mp h)⟩]

/-- A `$` followed by a digit/comma run, a dot, and a digit run captures the
run, the dot, and the digits. -/
theorem extract_group_frac (ds fs : List Char) (hne : ds ≠ [])
    (hds : ∀ c ∈ ds, isDigitOrComma c = true)
    (hfs : ∀ c ∈ fs, c.isDigit = true) :
    extractPriceGroup ('$' :: (ds ++ '.' :: fs)) = some (ds ++ '.' :: fs) := by
  have h1 : (ds ++ '.' :: fs).takeWhile isDigitOrComma = ds := by
    rw [takeWhile_all_append _ _ _ hds,
      takeWhile_cons_of_neg _ _ _ (by decide), List.append_nil]
  have h2 : (ds ++ '.' :: fs).dropWhile isDigitOrComma = '.' :: fs := by
    rw [dropWhile_all_append _ _ _ hds,
      dropWhile_cons_of_neg _ _ _ (by decide)]
  have h3 : fs.takeWhile Char.isDigit = fs := takeWhile_all_eq_self _ _ hfs
  unfold extractPriceGroup
  rw [h1, h2, if_pos ⟨rfl, fun h => hne (List.isEmpty_iff.mp h)⟩]
  show some (ds ++ '.' :: fs.takeWhile Char.isDigit) = some (ds ++ '.' :: fs)
  rw [h3]

/-- Decimal cast of a pure digit list. -/
theorem castDecCents_digits (ds : List Char) (hne : ds ≠ [])
    (hall : ∀ c ∈ ds, c.isDigit = true) :
    castDecCents ds = decimalCents ds [] := by
  have h1 : ds.takeWhile Char.isDigit = ds := takeWhile_all_eq_self _ _ hall
  have h2 : ds.dropWhile Char.isDigit = [] := dropWhile_all_eq_nil _ _ hall
  unfold castDecCents
  rw [h2]
  show (if (ds.takeWhile Char.isDigit).isEmpty then none
        else decimalCents (ds.takeWhile Char.isDigit) []) = decimalCents ds []
  rw [h1, if_neg fun h => hne (List.isEmpty_iff.mp h)]

/-- Decimal cast of a digit list, a dot, and a digit list. -/
theorem castDecCents_digits_frac (ds fs : List Char) (hne : ds ≠ [])
    (hds : ∀ c ∈ ds, c.isDigit = true) (hfs : ∀ c ∈ fs, c.isDigit = true) :
    castDecCents (ds ++ '.' :: fs) = decimalCents ds fs := by
  have h1 : (ds ++ '.' :: fs).takeWhile Char.isDigit = ds := by
    rw [takeWhile_all_append _ _ _ hds,
      takeWhile_cons_of_neg _ _ _ (by decide), List.append_nil]
  have h2 : (ds ++ '.' :: fs).dropWhile Char.isDigit = '.' :: fs := by
    rw [dropWhile_all_append _ _ _ hds,
      dropWhile_cons_of_neg _ _ _ (by decide)]
  unfold castDecCents
  rw [h2]
  show (if fs.all Char.isDigit ∧
          ¬(((ds ++ '.' :: fs).takeWhile Char.isDigit).isEmpty ∧ fs.isEmpty)
        then decimalCents ((ds ++ '.' :: fs).takeWhile Char.isDigit) fs
        else none) = decimalCents ds fs
  rw [h1, if_pos ⟨List.all_eq_true.mpr hfs,
    fun h => hne (List.isEmpty_iff.mp h.1)⟩]

/-- Decimal cast of any list whose digit/comma prefix contains a comma is
null: the parse stops at the comma, an illegal character in a decimal
literal. -/
theorem castDecCents_comma (cs t : List Char)
    (hall : ∀ c ∈ cs, isDigitOrComma c = true) (hc : ',' ∈ cs) :
    castDecCents (cs ++ t) = none := by
  obtain ⟨u, hu⟩ := dropWhile_digit_comma_head cs t hall hc
  unfold castDecCents
  rw [hu]
  rfl

/-- A character list with no `$`-digit/comma position yields no regex match. -/
theorem extract_none_of_no_match (l : List Char)
    (h : hasPriceMatch l = false) : extractPriceGroup l = none := by
  induction l with
  | nil => rfl
  | cons c tl ih =>
    unfold hasPriceMatch at h
    unfold extractPriceGroup
    by_cases hcond : c = '$' ∧ ¬(tl.takeWhile isDigitOrComma).isEmpty
    · rw [if_pos hcond] at h
      exact absurd h (by decide)
    · rw [if_neg hcond] at h
      rw [if_neg hcond]
      exact ih h

/-- C2 (amended): the selling-price extraction composes the regex
`\$([\d,]+\.?\d*)` with a decimal(10,2) cast, and because the regex KEEPS the
comma thousands separators inside the captured group while the cast rejects
commas, a matching price string yields the stripped numeric value only when
it contains no comma: (i) `$` followed by digits gives the value in cents;
(ii) `$` followed by digits, a dot, and fraction digits gives the HALF_UP
two-decimal rounding; (iii)/(iv) any matched group whose digit/comma run
contains a comma casts to null; (v) a string with no match anywhere yields
null. -/
theorem C2_price_extraction_amended :
    (∀ ds : List Char, ds ≠ [] → (∀ c ∈ ds, c.isDigit = true) →
      digitsToNat ds * 100 < 10 ^ 10 →
      sellingPriceOf (some ⟨'$' :: ds⟩) =
        some (Int.ofNat (digitsToNat ds * 100))) ∧
    (∀ ds fs : List Char, ds ≠ [] → (∀ c ∈ ds, c.isDigit = true) →
      (∀ c ∈ fs, c.isDigit = true) →
      digitsToNat ds * 100 + fracToCents fs < 10 ^ 10 →
      sellingPriceOf (some ⟨'$' :: (ds ++ '.' :: fs)⟩) =
        some (Int.ofNat (digitsToNat ds * 100 + fracToCents fs))) ∧
    (∀ cs : List Char, (∀ c ∈ cs, isDigitOrComma c = true) → ',' ∈ cs →
      sellingPriceOf (some ⟨'$' :: cs⟩) = none) ∧
    (∀ cs fs : List Char, (∀ c ∈ cs, isDigitOrComma c = true) → ',' ∈ cs →
      (∀ c ∈ fs, c.isDigit = true) →
      sellingPriceOf (some ⟨'$' :: (cs ++ '.' :: fs)⟩) = none) ∧
    (∀ s : String, hasPriceMatch s.data = false →
      sellingPriceOf (some s) = none) := by
  refine ⟨?_, ?_, ?_, ?_, ?_⟩
  · intro ds hne hall hbound
    have hds' : ∀ c ∈ ds, isDigitOrComma c = true := fun c hc => by
      unfold isDigitOrComma
      rw [hall c hc]
      rfl
    show castDecCents (extractPriceString ('$' :: ds)).data = _
    rw [show extractPriceString ('$' :: ds) = ⟨ds⟩ from by
      unfold extractPriceString
      rw [extract_group_nofrac ds hne hds']]
    show castDecCents ds = _
    rw [castDecCents_digits ds hne hall]
    have hb' : digitsToNat ds * 100 + fracToCents [] < 10 ^ 10 := hbound
    show (if digitsToNat ds * 100 + fracToCents [] < 10 ^ 10 then
        some (Int.ofNat (digitsToNat ds * 100 + fracToCents [])) else none) = _
    rw [if_pos hb']
    rfl
  · intro ds fs hne hds hfs hbound
    have hds' : ∀ c ∈ ds, isDigitOrComma c = true := fun c hc => by
      unfold isDigitOrComma
      rw [hds c hc]
      rfl
    show castDecCents (extractPriceString ('$' :: (ds ++ '.' :: fs))).data = _
    rw [show extractPriceString ('$' :: (ds ++ '.' :: fs)) = ⟨ds ++ '.' :: fs⟩ from by
      unfold extractPriceString
      rw [extract_group_frac ds fs hne hds' hfs]]
    show castDecCents (ds ++ '.' :: fs) = _
    rw [castDecCents_digits_frac ds fs hne hds hfs]
    show (if digitsToNat ds * 100 + fracToCents fs < 10 ^ 10 then
        some (Int.ofNat (digitsToNat ds * 100 + fracToCents fs)) else none) = _
    rw [if_pos hbound]
  · intro cs hall hc
    have hne : cs ≠ [] := List.ne_nil_of_mem hc
    show castDecCents (extractPriceString ('$' :: cs)).data = none
    rw [show extractPriceString ('$' :: cs) = ⟨cs⟩ from by
      unfold extractPriceString
      rw [extract_group_nofrac cs hne hall]]
    show castDecCents cs = none
    have := castDecCents_comma cs [] hall hc
    rw [List.append_nil] at this
    exact this
  · intro cs fs hall hc hfs
    have hne : cs ≠ [] := List.ne_nil_of_mem hc
    show castDecCents (extractPriceString ('$' :: (cs ++ '.' :: fs))).data = none
    rw [show extractPriceString ('$' :: (cs ++ '.' :: fs)) = ⟨cs ++ '.' :: fs⟩ from by
      unfold extractPriceString
      rw [extract_group_frac cs fs hne hall hfs]]
    show castDecCents (cs ++ '.' :: fs) = none
    exact castDecCents_comma cs ('.' :: fs) hall hc
  · intro s hs
    show castDecCents (extractPriceString s.data).data = none
    rw [show extractPriceString s.data = ⟨[]⟩ from by
      unfold extractPriceString
      rw [extract_none_of_no_match s.data hs]]
    rfl

/-- Witness for the amended C2: "$12.5" extracts as 12.50, "$1,2" (a comma
inside the matched group) casts to null. -/
theorem C2_price_extraction_amended_witness :
    sellingPriceOf (some ⟨'$' :: (['1', '2'] ++ '.' :: ['5'])⟩) =
      some (Int.ofNat (digitsToNat ['1', '2'] * 100 + fracToCents ['5'])) ∧
    sellingPriceOf (some ⟨'$' :: ['1', ',', '2']⟩) = none :=
  ⟨C2_price_extraction_amended.2.1 ['1', '2'] ['5'] (by decide) (by decide)
      (by decide) (by decide),
   C2_price_extraction_amended.2.2.1 ['1', ',', '2'] (by decide) (by decide)⟩

/-- C2 counterexample: "$1,234" matches the claimed pattern (digits with a
comma thousands separator) and its stripped numeric value is 1234, but the
pipeline produces null for it, because the captured group keeps the comma
and the decimal cast rejects it. -/
theorem C2_counterexample :
    claimPricePattern ("$1,234") = true ∧
    claimStrippedCents ("$1,234") = some 123400 ∧
    sellingPriceOf (some ("$1,234")) = none := by decide

end ECommerceETL
